import Mathlib

/-!
Shallow embedding of the WalrusBlobScanner classification core:
the content sniffer (`BlobReader.detectContentType`), the category
classifier (`BlobClassifier`), the site-structure analyzer
(`site-detector.ts`) and the deletion planner (`DeletionManager`).

Buffers are modelled as `List Nat` (byte values).  The two external
libraries used by the source — JSZip (`zip.loadAsync`) and the built-in
JSON parser (`JSON.parse`) — are modelled as explicit function
parameters: `parseZip : List Nat → Option (List ZipEntry)` returns the
entry table of the archive when the bytes open as one, and
`jsonOk : String → Bool` tells whether a string parses as JSON.
JavaScript string operations (`includes`, `split`, `trim`, …) are
re-implemented over `List Char` so that everything evaluates by `decide`.
-/

/-- JS `hay.includes(needle)` on byte/char sequences: contiguous
subsequence search (`Buffer.prototype.includes` / `String.prototype.includes`). -/
def listContainsSeq {α : Type} [BEq α] (hay needle : List α) : Bool :=
  match hay with
  | [] => needle.isEmpty
  | _ :: t => needle.isPrefixOf hay || listContainsSeq t needle

/-- JS `s.includes(pat)` for strings. -/
def strContains (s pat : String) : Bool :=
  listContainsSeq s.data pat.data

/-- JS `s.startsWith(pat)`. -/
def strStartsWith (s pat : String) : Bool :=
  pat.data.isPrefixOf s.data

/-- JS `s.endsWith(pat)`. -/
def strEndsWith (s pat : String) : Bool :=
  pat.data.isSuffixOf s.data

/-- Characters trimmed by JS `String.prototype.trim` (ASCII whitespace). -/
def trimChars (cs : List Char) : List Char :=
  ((cs.dropWhile Char.isWhitespace).reverse.dropWhile Char.isWhitespace).reverse

/-- JS `s.trim()`. -/
def strTrim (s : String) : String :=
  String.mk (trimChars s.data)

/-- JS `s.toLowerCase()` (ASCII). -/
def strLower (s : String) : String :=
  String.mk (s.data.map Char.toLower)

/-- JS `s.split(sep)` for a single-character separator. -/
def splitChars (sep : Char) : List Char → List (List Char)
  | [] => [[]]
  | c :: rest =>
    let r := splitChars sep rest
    if c == sep then [] :: r
    else
      match r with
      | h :: t => (c :: h) :: t
      | [] => [[c]]

/-- JS `s.split(sep)` returning strings. -/
def strSplit (s : String) (sep : Char) : List String :=
  (splitChars sep s.data).map String.mk

/-- `Buffer.prototype.toString('utf8')`, restricted to the byte-per-character
reading that suffices for the ASCII inputs of the analysis. -/
def bufToString (content : List Nat) : String :=
  String.mk (content.map Char.ofNat)

/-- Byte sequence of an ASCII string (for `Buffer.from(s, 'utf8')`). -/
def strBytes (s : String) : List Nat :=
  s.data.map Char.toNat

/-- JS `s.indexOf(c)` for a single character: `some i` when found. -/
def charIndexOf (cs : List Char) (c : Char) : Option Nat :=
  match cs with
  | [] => none
  | x :: t => if x == c then some 0 else (charIndexOf t c).map (· + 1)

/-! ## Data model (`src/types/index.ts`) -/

/-- `BlobCategory` enumeration. -/
inductive BlobCategory where
  | WEBSITE | IMAGE | DOCUMENT | ARCHIVE | VIDEO | AUDIO' | DATA | CODE | UNKNOWN
  deriving DecidableEq, Repr

/-- `BlobImportance` enumeration, from most to least protected. -/
inductive BlobImportance where
  | CRITICAL | IMPORTANT | NORMAL | LOW | DISPOSABLE
  deriving DecidableEq, Repr

/-- `BlobInfo`: identity and metadata of one storage object. -/
structure BlobInfo where
  blobId : String
  size : Option Nat := none
  contentType : Option String := none
  isExpired : Bool
  endEpoch : Option Nat := none
  isDeletable : Option Bool := none
  suiObjectId : Option String := none
  owner : Option String := none
  createdEpoch : Option Nat := none
  storageRebate : Option Nat := none
  deriving DecidableEq, Repr

/-- `SiteResource`: one file of a site bundle. -/
structure SiteResource where
  path : String
  blobId : String
  contentType : Option String := none
  size : Option Nat := none
  deriving DecidableEq, Repr

/-- `WalrusSite`: the site descriptor produced by structural analysis. -/
structure WalrusSite where
  objectId : String
  blobId : String
  name : String
  domain : Option String := none
  hasIndexHtml : Bool
  resources : List SiteResource
  headers : Option (List (String × String)) := none
  isFileDirectory : Bool
  deriving DecidableEq, Repr

/-- The `structure` component of a `SiteDetectionResult`. -/
structure SiteStructure where
  hasIndexHtml : Bool
  hasHeaders : Bool
  resourceCount : Nat
  directories : List String
  deriving DecidableEq, Repr

/-- `SiteDetectionResult` returned by `detectWalrusSite`. -/
structure SiteDetectionResult where
  isWalrusSite : Bool
  siteInfo : Option WalrusSite := none
  structure' : Option SiteStructure := none
  deriving DecidableEq, Repr

/-- `BlobClassification`: the judgment for one blob.  `lastAccessed` is kept
in epoch-milliseconds rather than as a `Date` object. -/
structure BlobClassification where
  blobId : String
  category : BlobCategory
  subcategory : Option String := none
  importance : BlobImportance
  canDelete : Bool
  deleteReason : Option String := none
  sizeBytes : Nat
  storageCost : Option Nat := none
  referencedBy : List String
  lastAccessed : Option Nat := none
  deriving DecidableEq, Repr

/-! ## Content sniffer (`src/core/blob-reader.ts`) -/

/-- `BlobReader.isTextContent`: fraction of control bytes (excluding
tab/newline/carriage-return) in the first 1024 bytes below 30 %.  The JS
division `0 / 0` yields `NaN`, and `NaN < 0.3` is `false`, so the empty
buffer is not text. -/
def isTextContent (content : List Nat) : Bool :=
  let sample := content.take 1024
  let nonTextBytes :=
    (sample.filter (fun b => decide (b < 32) && b != 9 && b != 10 && b != 13)).length
  if sample.length = 0 then false
  else decide (nonTextBytes * 10 < sample.length * 3)

/-- `BlobReader.detectContentType` (the spec's `sniff`).  `jsonOk` models
`JSON.parse` succeeding on the decoded text.  A provided type is returned
unchanged when it is truthy (non-empty) and not the generic fallback. -/
def detectContentType (jsonOk : String → Bool) (content : List Nat)
    (providedType : Option String) : String :=
  if providedType.getD "" != "" && providedType.getD "" != "application/octet-stream" then
    providedType.getD ""
  else
    let signature := content.take 16
    if listContainsSeq signature (strBytes "<!DOCTYPE html")
        || listContainsSeq signature (strBytes "<html") then
      "text/html"
    else if listContainsSeq signature (strBytes "PK") then
      "application/zip"
    else if jsonOk (bufToString content) then
      "application/json"
    else if isTextContent content then
      "text/plain"
    else
      "application/octet-stream"

/-! ## Category classifier (`BlobClassifier.categorizeFrom*`) -/

/-- `BlobClassifier.categorizeFromContentType`: ordered string matching over
the declared MIME type. -/
def categorizeFromContentType (contentType : String) : BlobCategory :=
  let type := strLower contentType
  if strContains type "text/html"
      || (strContains type "application/zip" && strContains type "site") then
    .WEBSITE
  else if strStartsWith type "image/" then .IMAGE
  else if strStartsWith type "video/" then .VIDEO
  else if strStartsWith type "audio/" then .AUDIO'
  else if strContains type "pdf" || strContains type "document"
      || strContains type "text/" || strContains type "application/msword"
      || strContains type "application/vnd.openxmlformats" then
    .DOCUMENT
  else if strContains type "zip" || strContains type "tar" || strContains type "rar"
      || strContains type "7z" || strContains type "gzip" then
    .ARCHIVE
  else if strContains type "javascript" || strContains type "typescript"
      || strContains type "python" || strContains type "json"
      || strContains type "xml" then
    .CODE
  else if strContains type "application/" || strContains type "binary" then
    .DATA
  else
    .UNKNOWN

/-- `BlobClassifier.categorizeFromContent`: byte-signature fallback when no
declared type exists. -/
def categorizeFromContent (jsonOk : String → Bool) (content : List Nat) : BlobCategory :=
  let signature := content.take 16
  if listContainsSeq signature (strBytes "<!DOCTYPE html")
      || listContainsSeq signature (strBytes "<html") then
    .WEBSITE
  else if signature[0]? == some 0x50 && signature[1]? == some 0x4B then
    .ARCHIVE
  else if signature[0]? == some 0xFF && signature[1]? == some 0xD8 then
    .IMAGE
  else if signature[0]? == some 0x89 && signature[1]? == some 0x50 then
    .IMAGE
  else if signature[0]? == some 0x47 && signature[1]? == some 0x49 then
    .IMAGE
  else if listContainsSeq signature (strBytes "%PDF") then
    .DOCUMENT
  else
    let text := bufToString (content.take 512)
    if jsonOk text then .CODE
    else if strContains text "<html" || strContains text "<!DOCTYPE" then .WEBSITE
    else .UNKNOWN

example : detectContentType (fun _ => false) (strBytes "<html><body>hi</body></html>") none = "text/html" := by decide
example : detectContentType (fun _ => false) [] none = "application/octet-stream" := by decide
example : categorizeFromContentType "text/html" = .WEBSITE := by decide
example : categorizeFromContentType "image/png" = .IMAGE := by decide
example : categorizeFromContentType "application/pdf" = .DOCUMENT := by decide

/-! ## Archive/site structure analyzer (`src/core/site-detector.ts`) -/

/-- One entry of a loaded zip archive (JSZip `zip.files` table): its key
`path`, its directory flag, the text obtained by `file.async('text')` and
the uncompressed size exposed by `_data?.uncompressedSize`. -/
structure ZipEntry where
  path : String
  dir : Bool
  text : String := ""
  uncompressedSize : Option Nat := none
  deriving DecidableEq, Repr

/-- Model of JSZip `loadAsync`: `some entries` when the bytes open as an
archive, `none` when loading throws. -/
def ParseZip : Type := List Nat → Option (List ZipEntry)

/-- Case-insensitive character comparison used by the `/i` regexes. -/
def lowerEq (a b : Char) : Bool := a.toLower == b.toLower

/-- Case-insensitive prefix test over characters. -/
def lcIsPrefixOf : List Char → List Char → Bool
  | [], _ => true
  | _ :: _, [] => false
  | p :: ps, c :: cs => lowerEq p c && lcIsPrefixOf ps cs

/-- Consume `[^>]*>`: skip to just past the first `>`; `none` when no `>`
remains (the regex match attempt fails then). -/
def consumeUntilGt : List Char → Option (List Char)
  | [] => none
  | c :: rest => if c == '>' then some rest else consumeUntilGt rest

/-- Attempt the regex `openTag[^>]*>([^<]*)closeTag` at the head of `s`,
returning the capture on success. -/
def matchTagAt (openTag closeTag : List Char) (s : List Char) : Option (List Char) :=
  if lcIsPrefixOf openTag s then
    match consumeUntilGt (s.drop openTag.length) with
    | none => none
    | some rest =>
      let captured := rest.takeWhile (fun c => !(c == '<'))
      if lcIsPrefixOf closeTag (rest.drop captured.length) then some captured else none
  else none

/-- Scan every start position for the first regex match. -/
def findTagContent (openTag closeTag : List Char) : List Char → Option (List Char)
  | [] => none
  | c :: t =>
    match matchTagAt openTag closeTag (c :: t) with
    | some cap => some cap
    | none => findTagContent openTag closeTag t

/-- `extractSiteTitle`: first `<title…>…</title>` capture, else first
`<h1…>…</h1>` capture, else `"Untitled Site"`; captures are trimmed. -/
def extractSiteTitle (htmlContent : String) : String :=
  match findTagContent "<title".data "</title>".data htmlContent.data with
  | some cap => String.mk (trimChars cap)
  | none =>
    match findTagContent "<h1".data "</h1>".data htmlContent.data with
    | some cap => String.mk (trimChars cap)
    | none => "Untitled Site"

/-- JS object assignment `headers[key] = value`: replace in place or append. -/
def upsert (k v : String) : List (String × String) → List (String × String)
  | [] => [(k, v)]
  | (k', v') :: rest => if k' == k then (k', v) :: rest else (k', v') :: upsert k v rest

/-- `parseHeaders`: newline-delimited `key: value` pairs, skipping blank,
`#`-comment and `/`-path lines; the colon must not be the first character. -/
def parseHeaders (headersContent : String) : List (String × String) :=
  (strSplit headersContent '\n').foldl (fun headers line =>
    let trimmed := strTrim line
    if trimmed != "" && !strStartsWith trimmed "#" && !strStartsWith trimmed "/" then
      match charIndexOf trimmed.data ':' with
      | some colonIndex =>
        if colonIndex > 0 then
          let key := strTrim (String.mk (trimmed.data.take colonIndex))
          let value := strTrim (String.mk (trimmed.data.drop (colonIndex + 1)))
          upsert key value headers
        else headers
      | none => headers
    else headers) []

/-- `guessContentType`: extension → MIME table lookup on the lowercased
last `.`-segment of the path. -/
def guessContentType (path : String) : String :=
  let ext := strLower (((strSplit path '.').getLast?).getD "")
  match ext with
  | "html" => "text/html"
  | "htm" => "text/html"
  | "css" => "text/css"
  | "js" => "application/javascript"
  | "json" => "application/json"
  | "png" => "image/png"
  | "jpg" => "image/jpeg"
  | "jpeg" => "image/jpeg"
  | "gif" => "image/gif"
  | "svg" => "image/svg+xml"
  | "webp" => "image/webp"
  | "ico" => "image/x-icon"
  | "txt" => "text/plain"
  | "md" => "text/markdown"
  | "pdf" => "application/pdf"
  | "zip" => "application/zip"
  | _ => "application/octet-stream"

/-- Insert into a lexicographically sorted list (used for the deduplicated,
sorted directory list of `extractDirectories`). -/
def insertSorted (s : String) : List String → List String
  | [] => [s]
  | x :: xs => if decide (s ≤ x) then s :: x :: xs else x :: insertSorted s xs

/-- Sort a list of strings (JS `Array.prototype.sort` default order on the
distinct members of a `Set`). -/
def sortStrings : List String → List String
  | [] => []
  | x :: xs => insertSorted x (sortStrings xs)

/-- `extractDirectories`: every strict path prefix of every resource path,
deduplicated and sorted. -/
def extractDirectories (resources : List SiteResource) : List String :=
  let dirs := resources.foldl (fun acc r =>
    let parts := strSplit r.path '/'
    (List.range parts.length).foldl (fun acc2 i =>
      if i ≥ 1 then
        let dir := String.intercalate "/" (parts.take i)
        if dir != "" && !acc2.contains dir then acc2 ++ [dir] else acc2
      else acc2) acc) []
  sortStrings dirs

/-- `index.html` test used inside `analyzeZipSite`'s entry loop. -/
def isIndexEntryPath (p : String) : Bool :=
  p == "index.html" || strEndsWith p "/index.html"

/-- `_headers` test used inside `analyzeZipSite`'s entry loop. -/
def isHeadersEntryPath (p : String) : Bool :=
  p == "_headers" || strEndsWith p "/_headers"

/-- Accumulator of `analyzeZipSite`'s `for` loop over the entry table. -/
structure ZipScan where
  resources : List SiteResource := []
  hasIndexHtml : Bool := false
  headers : List (String × String) := []
  siteName : String := ""
  deriving DecidableEq, Repr

/-- The entry loop of `analyzeZipSite`: non-directory entries are recorded
as resources; index entries set `hasIndexHtml` and the title; a `_headers`
entry replaces the header map. -/
def scanEntries (blobId : String) : List ZipEntry → ZipScan → ZipScan
  | [], acc => acc
  | e :: rest, acc =>
    if e.dir then scanEntries blobId rest acc
    else
      let acc1 :=
        if isIndexEntryPath e.path then
          { acc with hasIndexHtml := true, siteName := extractSiteTitle e.text }
        else acc
      let acc2 :=
        if isHeadersEntryPath e.path then { acc1 with headers := parseHeaders e.text }
        else acc1
      scanEntries blobId rest
        { acc2 with resources := acc2.resources ++
            [{ path := e.path, blobId := blobId,
               contentType := some (guessContentType e.path),
               size := e.uncompressedSize }] }

/-- `isZipBasedSite`: the bytes open as an archive and some entry key ends
with `index.html` or equals it. -/
def isZipBasedSite (parseZip : ParseZip) (content : List Nat) : Bool :=
  match parseZip content with
  | none => false
  | some entries =>
    entries.any (fun e => strEndsWith e.path "index.html" || e.path == "index.html")

/-- `analyzeZipSite`: walk the entries; `null` when neither an index page
nor any resource was found. -/
def analyzeZipSite (parseZip : ParseZip) (content : List Nat) (blobId : String) :
    Option WalrusSite :=
  match parseZip content with
  | none => none
  | some entries =>
    let scan := scanEntries blobId entries {}
    if !scan.hasIndexHtml && scan.resources.length == 0 then none
    else some
      { objectId := ""
        blobId := blobId
        name := scan.siteName
        hasIndexHtml := scan.hasIndexHtml
        resources := scan.resources
        headers := if scan.headers.length > 0 then some scan.headers else none
        isFileDirectory := !scan.hasIndexHtml && decide (scan.resources.length > 0) }

/-- `isSinglePageSite`: the decoded text looks like an HTML document. -/
def isSinglePageSite (content : List Nat) : Bool :=
  let text := bufToString content
  strContains text "<!DOCTYPE html" || strContains text "<html"
    || (strContains text "<" && strContains text ">" && strContains text "</")

/-- `analyzeSinglePageSite`: one synthetic `index.html` resource of the
full byte length. -/
def analyzeSinglePageSite (content : List Nat) (blobId : String) : WalrusSite :=
  { objectId := ""
    blobId := blobId
    name := extractSiteTitle (bufToString content)
    hasIndexHtml := true
    resources := [{ path := "index.html", blobId := blobId,
                    contentType := some "text/html", size := some content.length }]
    isFileDirectory := false }

/-- `detectWalrusSite` (the spec's `analyzeSite`): zip branch first, then
single-page branch, else not a site. -/
def detectWalrusSite (parseZip : ParseZip) (content : List Nat) (blobId : String) :
    SiteDetectionResult :=
  if isZipBasedSite parseZip content then
    match analyzeZipSite parseZip content blobId with
    | some siteInfo =>
      { isWalrusSite := true
        siteInfo := some siteInfo
        structure' := some
          { hasIndexHtml := siteInfo.hasIndexHtml
            hasHeaders := siteInfo.headers.isSome
            resourceCount := siteInfo.resources.length
            directories := extractDirectories siteInfo.resources } }
    | none => { isWalrusSite := false }
  else if isSinglePageSite content then
    { isWalrusSite := true
      siteInfo := some (analyzeSinglePageSite content blobId)
      structure' := some
        { hasIndexHtml := true, hasHeaders := false, resourceCount := 1, directories := [] } }
  else
    { isWalrusSite := false }

example : extractSiteTitle "<html><title> My Site </title></html>" = "My Site" := by decide
example : extractSiteTitle "<h1>Hello</h1>" = "Hello" := by decide
example : extractSiteTitle "plain text" = "Untitled Site" := by decide
example : parseHeaders "# comment\nContent-Type: text/html\n/path\n" =
    [("Content-Type", "text/html")] := by decide
example : guessContentType "a/b/style.css" = "text/css" := by decide

/-! ## Importance scorer and classifier (`src/core/blob-classifier.ts`) -/

/-- The two external library hooks threaded through the classifier:
JSZip's archive loader and `JSON.parse` success. -/
structure ExtEnv where
  parseZip : ParseZip
  jsonOk : String → Bool

/-- `BlobClassifier.getBlobAge`: whole days (ceiling) between `now` and the
blob's creation instant (`createdEpoch` days, one epoch = one day), `0` when
`createdEpoch` is absent or `0` (JS falsiness). -/
def getBlobAge (blob : BlobInfo) (nowMs : Nat) : Nat :=
  match blob.createdEpoch with
  | none => 0
  | some e =>
    if e = 0 then 0
    else
      let created := e * 86400000
      let diffTime := (Int.ofNat nowMs - Int.ofNat created).natAbs
      (diffTime + 86399999) / 86400000

/-- `BlobClassifier.determineCategory`: sniff bytes when no (truthy)
declared type exists — a failed read yields `UNKNOWN` — else categorize the
declared type.  `contentRead` models `walrusClient.readBlob` (`none` =
the read threw). -/
def determineCategory (ext : ExtEnv) (contentRead : Option (List Nat))
    (blob : BlobInfo) : BlobCategory :=
  if blob.contentType.getD "" == "" then
    match contentRead with
    | none => .UNKNOWN
    | some content => categorizeFromContent ext.jsonOk content
  else
    categorizeFromContentType (blob.contentType.getD "")

/-- `BlobClassifier.determineImportance`.  For a website-category blob the
content is fetched and run through `detectWalrusSite`; a failed read gives
`LOW`.  `referencedBy` models `findReferences`. -/
def determineImportance (ext : ExtEnv) (contentRead : Option (List Nat))
    (blob : BlobInfo) (category : BlobCategory) (referencedBy : List String)
    (nowMs : Nat) : BlobImportance :=
  if blob.isExpired then .DISPOSABLE
  else
    let rest :=
      if referencedBy.length > 0 then BlobImportance.IMPORTANT
      else if getBlobAge blob nowMs > 365 then .LOW
      else if getBlobAge blob nowMs > 180 then .NORMAL
      else .NORMAL
    if category == .WEBSITE then
      match contentRead with
      | none => .LOW
      | some content =>
        let siteDetection := detectWalrusSite ext.parseZip content blob.blobId
        if siteDetection.isWalrusSite then
          match siteDetection.siteInfo with
          | some siteInfo =>
            if siteInfo.domain.isSome then .CRITICAL else .IMPORTANT
          | none => rest
        else rest
    else rest

/-- `BlobClassifier.canSafelyDelete`: sequential early-return gate. -/
def canSafelyDelete (blob : BlobInfo) (importance : BlobImportance)
    (referencedBy : List String) (nowMs : Nat) : Bool :=
  if !(blob.isDeletable.getD false) then false
  else if importance == .CRITICAL then false
  else if referencedBy.length > 0 then false
  else if blob.isExpired then true
  else if importance == .DISPOSABLE then true
  else if importance == .LOW && decide (getBlobAge blob nowMs > 365) then true
  else false

/-- `BlobClassifier.getDeleteReason`. -/
def getDeleteReason (blob : BlobInfo) (importance : BlobImportance)
    (nowMs : Nat) : String :=
  if blob.isExpired then "Blob has expired"
  else if importance == .DISPOSABLE then "Marked as disposable"
  else if importance == .LOW && decide (getBlobAge blob nowMs > 365) then
    "Low importance and older than 1 year"
  else "Safe to delete based on analysis"

/-- `BlobClassifier.getSubcategory`: declared-type string lookup per
category; for websites the site descriptor decides, falling back to
`"ZIP Site"` / `"HTML Page"`. -/
def getSubcategory (ext : ExtEnv) (contentRead : Option (List Nat))
    (blob : BlobInfo) (category : BlobCategory) : Option String :=
  if blob.contentType.getD "" == "" then none
  else
    let contentType := strLower (blob.contentType.getD "")
    match category with
    | .IMAGE =>
      if strContains contentType "png" then some "PNG"
      else if strContains contentType "jpeg" || strContains contentType "jpg" then some "JPEG"
      else if strContains contentType "gif" then some "GIF"
      else if strContains contentType "svg" then some "SVG"
      else if strContains contentType "webp" then some "WebP"
      else none
    | .VIDEO =>
      if strContains contentType "mp4" then some "MP4"
      else if strContains contentType "webm" then some "WebM"
      else if strContains contentType "avi" then some "AVI"
      else if strContains contentType "mov" then some "MOV"
      else none
    | .DOCUMENT =>
      if strContains contentType "pdf" then some "PDF"
      else if strContains contentType "word" then some "Word"
      else if strContains contentType "text/plain" then some "Text"
      else if strContains contentType "markdown" then some "Markdown"
      else none
    | .ARCHIVE =>
      if strContains contentType "zip" then some "ZIP"
      else if strContains contentType "tar" then some "TAR"
      else if strContains contentType "rar" then some "RAR"
      else none
    | .WEBSITE =>
      let fallback :=
        some (if strContains contentType "zip" then "ZIP Site" else "HTML Page")
      match contentRead with
      | none => fallback
      | some content =>
        let siteDetection := detectWalrusSite ext.parseZip content blob.blobId
        if siteDetection.isWalrusSite then
          match siteDetection.siteInfo with
          | some siteInfo =>
            some (if siteInfo.isFileDirectory then "File Directory" else "Website")
          | none => fallback
        else fallback
    | _ => none

/-- `BlobClassifier.estimateLastAccess` in epoch-milliseconds. -/
def estimateLastAccess (blob : BlobInfo) : Option Nat :=
  match blob.createdEpoch with
  | some e => if e = 0 then none else some (e * 86400000)
  | none => none

/-- `BlobClassifier.classifyBlob`: assemble the classification record.
`contentRead` models the result of `walrusClient.readBlob` for this blob
and `referencedBy` the result of `findReferences` (its `catch` branch is
the empty list). -/
def classifyBlob (ext : ExtEnv) (contentRead : Option (List Nat))
    (referencedBy : List String) (nowMs : Nat) (blob : BlobInfo) :
    BlobClassification :=
  let category := determineCategory ext contentRead blob
  let importance := determineImportance ext contentRead blob category referencedBy nowMs
  let canDelete := canSafelyDelete blob importance referencedBy nowMs
  { blobId := blob.blobId
    category := category
    subcategory := getSubcategory ext contentRead blob category
    importance := importance
    canDelete := canDelete
    deleteReason := if canDelete then some (getDeleteReason blob importance nowMs) else none
    sizeBytes := blob.size.getD 0
    storageCost := blob.storageRebate
    referencedBy := referencedBy
    lastAccessed := estimateLastAccess blob }

/-! ## Deletion planner (`src/core/deletion-manager.ts`) -/

/-- `DeletionOptions`: optional AND-combined filters. -/
structure DeletionOptions where
  includeCategories : Option (List BlobCategory) := none
  excludeCategories : Option (List BlobCategory) := none
  maxImportance : Option BlobImportance := none
  minSizeBytes : Option Nat := none
  maxSizeBytes : Option Nat := none

/-- `DeletionPlan`; the category record is modelled as a count function. -/
structure DeletionPlan where
  blobsToDelete : List String
  totalSizeReduction : Nat
  costSavings : Nat
  categories : BlobCategory → Nat
  warnings : List String

/-- Position in the `importanceOrder` array of `shouldDelete`
(`indexOf` over `[DISPOSABLE, LOW, NORMAL, IMPORTANT, CRITICAL]`). -/
def importanceIdx : BlobImportance → Nat
  | .DISPOSABLE => 0
  | .LOW => 1
  | .NORMAL => 2
  | .IMPORTANT => 3
  | .CRITICAL => 4

/-- `DeletionManager.shouldDelete`: `canDelete` plus every supplied filter;
a size filter of `0` is falsy in JS and therefore ignored. -/
def shouldDelete (c : BlobClassification) (options : DeletionOptions) : Bool :=
  if !c.canDelete then false
  else if (options.excludeCategories.getD []).contains c.category then false
  else if options.includeCategories.isSome
      && !((options.includeCategories.getD []).contains c.category) then false
  else if (match options.maxImportance with
           | some m => decide (importanceIdx c.importance > importanceIdx m)
           | none => false) then false
  else if (match options.minSizeBytes with
           | some m => !(m == 0) && decide (c.sizeBytes < m)
           | none => false) then false
  else if (match options.maxSizeBytes with
           | some m => !(m == 0) && decide (c.sizeBytes > m)
           | none => false) then false
  else true

/-- `DeletionManager.generateWarnings`: advisory strings about the final
target set. -/
def generateWarnings (deletableBlobs : List BlobClassification) : List String :=
  let warnings : List String := []
  let websiteCount := (deletableBlobs.filter (fun b => b.category == .WEBSITE)).length
  let warnings :=
    if websiteCount > 0 then warnings ++ [toString websiteCount ++ " website(s) will be deleted"]
    else warnings
  let importantCount := (deletableBlobs.filter (fun b => b.importance == .IMPORTANT)).length
  let warnings :=
    if importantCount > 0 then
      warnings ++ [toString importantCount ++ " important blob(s) will be deleted"]
    else warnings
  let largeCount :=
    (deletableBlobs.filter (fun b => decide (b.sizeBytes > 10 * 1024 * 1024))).length
  let warnings :=
    if largeCount > 0 then
      warnings ++ [toString largeCount ++ " large blob(s) (>10MB) will be deleted"]
    else warnings
  if deletableBlobs.length > 50 then
    warnings ++ ["Large number of blobs to delete (" ++ toString deletableBlobs.length ++ ")"]
  else warnings

/-- `DeletionManager.createDeletionPlan`, applied to the classification
list its classifier stage produced. -/
def createDeletionPlan (classifications : List BlobClassification)
    (options : DeletionOptions) : DeletionPlan :=
  let deletableBlobs := classifications.filter (fun c => shouldDelete c options)
  { blobsToDelete := deletableBlobs.map (fun b => b.blobId)
    totalSizeReduction := deletableBlobs.foldl (fun sum b => sum + b.sizeBytes) 0
    costSavings := deletableBlobs.foldl (fun sum b => sum + b.storageCost.getD 0) 0
    categories := fun category =>
      (deletableBlobs.filter (fun b => b.category == category)).length
    warnings := generateWarnings deletableBlobs }

/-! ## Helper lemmas -/

/-- The entry loop sets `hasIndexHtml` exactly when some non-directory
entry is an index entry. -/
theorem scanEntries_hasIndexHtml (bid : String) (l : List ZipEntry) (acc : ZipScan) :
    (scanEntries bid l acc).hasIndexHtml
      = (acc.hasIndexHtml || l.any (fun e => !e.dir && isIndexEntryPath e.path)) := by
  induction l generalizing acc with
  | nil => simp [scanEntries]
  | cons e rest ih =>
    simp only [scanEntries, List.any_cons]
    by_cases hd : e.dir = true
    · simp [hd, ih]
    · by_cases hi : isIndexEntryPath e.path = true <;>
        by_cases hh : isHeadersEntryPath e.path = true <;>
          simp [hd, hi, hh, ih]

/-- The entry loop records exactly the non-directory entries as resources. -/
theorem scanEntries_resources_length (bid : String) (l : List ZipEntry) (acc : ZipScan) :
    (scanEntries bid l acc).resources.length
      = acc.resources.length + (l.filter (fun e => !e.dir)).length := by
  induction l generalizing acc with
  | nil => simp [scanEntries]
  | cons e rest ih =>
    simp only [scanEntries]
    by_cases hd : e.dir = true
    · simp [hd, ih]
    · by_cases hi : isIndexEntryPath e.path = true <;>
        by_cases hh : isHeadersEntryPath e.path = true <;>
          simp [hd, hi, hh, ih, List.filter_cons] <;> omega

/-- Inversion of a successful `canSafelyDelete`. -/
theorem canSafelyDelete_spec (blob : BlobInfo) (imp : BlobImportance)
    (refs : List String) (nowMs : Nat)
    (h : canSafelyDelete blob imp refs nowMs = true) :
    blob.isDeletable.getD false = true ∧ imp ≠ .CRITICAL ∧ refs = [] ∧
      (blob.isExpired = true ∨ imp = .DISPOSABLE
        ∨ (imp = .LOW ∧ getBlobAge blob nowMs > 365)) := by
  unfold canSafelyDelete at h
  split_ifs at h with h1 h2 h3 h4 h5 h6
  · refine ⟨by simpa using h1, ?_, ?_, Or.inl h4⟩
    · intro hc; exact absurd (by rw [hc]; decide) h2
    · cases refs with
      | nil => rfl
      | cons a t => exact absurd (by simp) h3
  · refine ⟨by simpa using h1, ?_, ?_,
      Or.inr (Or.inl (by have := h5; simpa [beq_iff_eq] using this))⟩
    · intro hc; exact absurd (by rw [hc]; decide) h2
    · cases refs with
      | nil => rfl
      | cons a t => exact absurd (by simp) h3
  · refine ⟨by simpa using h1, ?_, ?_, ?_⟩
    · intro hc; exact absurd (by rw [hc]; decide) h2
    · cases refs with
      | nil => rfl
      | cons a t => exact absurd (by simp) h3
    · simp only [Bool.and_eq_true, beq_iff_eq, decide_eq_true_eq] at h6
      exact Or.inr (Or.inr h6)

/-- Without expiry, `determineImportance` never yields `DISPOSABLE`. -/
theorem determineImportance_ne_disposable (ext : ExtEnv)
    (contentRead : Option (List Nat)) (blob : BlobInfo) (category : BlobCategory)
    (referencedBy : List String) (nowMs : Nat) (hexp : blob.isExpired = false) :
    determineImportance ext contentRead blob category referencedBy nowMs
      ≠ .DISPOSABLE := by
  unfold determineImportance
  simp only [hexp, Bool.false_eq_true, if_false]
  repeat' split
  all_goals simp

/-- Folding `+ f b` over a list sums the mapped values. -/
theorem foldl_add_map_sum {α : Type} (f : α → Nat) (l : List α) (n : Nat) :
    l.foldl (fun s b => s + f b) n = n + (l.map f).sum := by
  induction l generalizing n with
  | nil => simp
  | cons a t ih => simp [ih, Nat.add_assoc]

/-! ## Concrete fixtures used by witnesses and counterexamples -/

/-- External environment in which every blob read fails to be an archive
and nothing parses as JSON. -/
def cExt : ExtEnv := { parseZip := fun _ => none, jsonOk := fun _ => false }

/-- An expired, owner-deletable document blob. -/
def cExpiredBlob : BlobInfo :=
  { blobId := "blob-1", size := some 1048576, contentType := some "application/pdf",
    isExpired := true, isDeletable := some true, createdEpoch := some 100,
    storageRebate := some 5 }

/-! ## C5 — declared type wins -/

/-- C5 (amended): for every byte sequence and every declared type that is
present, non-empty and not `application/octet-stream`, `detectContentType`
returns the declared type unchanged, independent of the bytes. -/
theorem declared_type_wins (jsonOk : String → Bool) (content : List Nat)
    (t : String) (h1 : t ≠ "") (h2 : t ≠ "application/octet-stream") :
    detectContentType jsonOk content (some t) = t := by
  unfold detectContentType
  simp [Option.getD_some, bne_iff_ne, h1, h2]

/-- C5 witness: the declared type `text/html` is returned for an empty
buffer. -/
theorem declared_type_wins_witness :
    ("text/html" ≠ "" ∧ "text/html" ≠ "application/octet-stream") ∧
      detectContentType (fun _ => false) [] (some "text/html") = "text/html" :=
  ⟨⟨by decide, by decide⟩,
   declared_type_wins (fun _ => false) [] "text/html" (by decide) (by decide)⟩

/-- C5 counterexample: the empty string is a present declared type distinct
from `application/octet-stream`, yet it is not returned unchanged — JS
treats `""` as falsy and sniffs the bytes instead. -/
theorem empty_declared_type_is_sniffed :
    detectContentType (fun _ => false) (strBytes "<html>") (some "") = "text/html" ∧
      "text/html" ≠ "" := by
  exact ⟨by decide, by decide⟩

/-! ## C6 — PK signature sniffs as zip -/

/-- C6 (amended): a byte sequence whose first two bytes are `0x50 0x4B`
sniffs (with no declared type) as `application/zip`, provided its first 16
bytes do not also contain an HTML marker — the HTML check runs first. -/
theorem pk_signature_sniffs_zip (jsonOk : String → Bool) (rest : List Nat)
    (h1 : listContainsSeq ((0x50 :: 0x4B :: rest).take 16) (strBytes "<!DOCTYPE html") = false)
    (h2 : listContainsSeq ((0x50 :: 0x4B :: rest).take 16) (strBytes "<html") = false) :
    detectContentType jsonOk (0x50 :: 0x4B :: rest) none = "application/zip" := by
  have hPKb : strBytes "PK" = [0x50, 0x4B] := by decide
  have hpk : ∀ l : List Nat, listContainsSeq (0x50 :: 0x4B :: l) [0x50, 0x4B] = true := by
    intro l
    simp [listContainsSeq, List.isPrefixOf]
  unfold detectContentType
  rw [hPKb]
  simp at h1 h2
  simp [h1, h2, hpk]

/-- C6 witness at the concrete bytes `0x50 0x4B 0x01 0x02`. -/
theorem pk_signature_sniffs_zip_witness :
    detectContentType (fun _ => false) (0x50 :: 0x4B :: [1, 2]) none = "application/zip" :=
  pk_signature_sniffs_zip (fun _ => false) [1, 2] (by decide) (by decide)

/-- C6 counterexample: the bytes of `"PK<html"` start with `0x50 0x4B` and
carry no declared type, yet sniff as `text/html`, because the HTML-marker
scan over the first 16 bytes runs before the PK check. -/
theorem pk_with_html_marker_sniffs_html :
    (strBytes "PK<html")[0]? = some 0x50 ∧ (strBytes "PK<html")[1]? = some 0x4B ∧
      detectContentType (fun _ => false) (strBytes "PK<html") none = "text/html" := by
  exact ⟨by decide, by decide, by decide⟩

/-! ## C7 — sniff and categorize are total -/

/-- C7: `detectContentType` with no declared type always returns one of the
five sniffed MIME strings (degrading to `application/octet-stream` when no
check matches), and `categorizeFromContentType` maps every MIME string to
one of the nine categories. -/
theorem sniff_categorize_total (jsonOk : String → Bool) (content : List Nat)
    (mimeType : String) :
    detectContentType jsonOk content none ∈
        ["text/html", "application/zip", "application/json", "text/plain",
         "application/octet-stream"]
    ∧ categorizeFromContentType mimeType ∈
        [BlobCategory.WEBSITE, .IMAGE, .DOCUMENT, .ARCHIVE, .VIDEO, .AUDIO',
         .DATA, .CODE, .UNKNOWN]
    ∧ (listContainsSeq (content.take 16) (strBytes "<!DOCTYPE html") = false →
       listContainsSeq (content.take 16) (strBytes "<html") = false →
       listContainsSeq (content.take 16) (strBytes "PK") = false →
       jsonOk (bufToString content) = false →
       isTextContent content = false →
       detectContentType jsonOk content none = "application/octet-stream") := by
  refine ⟨?_, ?_, ?_⟩
  · unfold detectContentType
    cases h1 : listContainsSeq (content.take 16) (strBytes "<!DOCTYPE html")
        || listContainsSeq (content.take 16) (strBytes "<html") <;>
      cases h2 : listContainsSeq (content.take 16) (strBytes "PK") <;>
        cases h3 : jsonOk (bufToString content) <;>
          cases h4 : isTextContent content <;>
            simp [h1, h2, h3, h4]
  · cases h : categorizeFromContentType mimeType <;> simp
  · intro h1 h2 h3 h4 h5
    unfold detectContentType
    simp [h1, h2, h3, h4, h5]

/-- C7 witness: a single `0x00` byte matches nothing and degrades to the
fallback type. -/
theorem sniff_categorize_total_witness :
    detectContentType (fun _ => false) [0] none = "application/octet-stream" :=
  (sniff_categorize_total (fun _ => false) [0] "x").2.2
    (by decide) (by decide) (by decide) (by decide) (by decide)

/-! ## C1 — expiry dominates scoring -/

/-- C1 (amended): an expired blob always scores `DISPOSABLE`, and it is
deletable exactly when the owner's deletable flag is set AND its
`referencedBy` set is empty — a non-empty reference set also vetoes
deletion, not only the deletable flag. -/
theorem expired_blob_scoring (ext : ExtEnv) (contentRead : Option (List Nat))
    (blob : BlobInfo) (category : BlobCategory) (referencedBy : List String)
    (nowMs : Nat) (hexp : blob.isExpired = true) :
    determineImportance ext contentRead blob category referencedBy nowMs = .DISPOSABLE
    ∧ canSafelyDelete blob
        (determineImportance ext contentRead blob category referencedBy nowMs)
        referencedBy nowMs
      = (blob.isDeletable.getD false && referencedBy.isEmpty) := by
  have himp : determineImportance ext contentRead blob category referencedBy nowMs
      = .DISPOSABLE := by
    unfold determineImportance
    simp [hexp]
  refine ⟨himp, ?_⟩
  rw [himp]
  unfold canSafelyDelete
  cases hd : blob.isDeletable.getD false <;> cases referencedBy <;> simp [hexp]

/-- C1 witness: an expired, deletable, unreferenced blob is deletable. -/
theorem expired_blob_scoring_witness :
    cExpiredBlob.isExpired = true ∧
      (determineImportance cExt (some []) cExpiredBlob .DOCUMENT [] 0 = .DISPOSABLE
       ∧ canSafelyDelete cExpiredBlob
           (determineImportance cExt (some []) cExpiredBlob .DOCUMENT [] 0) [] 0
         = (cExpiredBlob.isDeletable.getD false && List.isEmpty ([] : List String))) :=
  ⟨by decide, expired_blob_scoring cExt (some []) cExpiredBlob .DOCUMENT [] 0 (by decide)⟩

/-- C1 counterexample: an expired blob whose deletable flag is set but that
is referenced by another blob scores `DISPOSABLE` yet is NOT deletable —
refuting "deletable regardless of referencedBy". -/
theorem expired_referenced_blob_not_deletable :
    cExpiredBlob.isExpired = true ∧ cExpiredBlob.isDeletable = some true ∧
      determineImportance cExt (some []) cExpiredBlob .DOCUMENT ["other-blob"] 0
        = .DISPOSABLE ∧
      canSafelyDelete cExpiredBlob
          (determineImportance cExt (some []) cExpiredBlob .DOCUMENT ["other-blob"] 0)
          ["other-blob"] 0
        = false := by
  exact ⟨by decide, by decide, by decide, by decide⟩

/-! ## C2 — deletable classification invariant -/

/-- C2: every classification with `canDelete = true` has non-critical
importance and an empty `referencedBy` set; in particular a blob with a
non-empty `referencedBy` set is never deletable. -/
theorem classification_deletable_invariant (ext : ExtEnv)
    (contentRead : Option (List Nat)) (referencedBy : List String) (nowMs : Nat)
    (blob : BlobInfo) :
    ((classifyBlob ext contentRead referencedBy nowMs blob).canDelete = true →
      (classifyBlob ext contentRead referencedBy nowMs blob).importance ≠ .CRITICAL ∧
        (classifyBlob ext contentRead referencedBy nowMs blob).referencedBy = [])
    ∧ (referencedBy ≠ [] →
        (classifyBlob ext contentRead referencedBy nowMs blob).canDelete = false) := by
  constructor
  · intro h
    simp only [classifyBlob] at h ⊢
    obtain ⟨-, hcrit, hrefs, -⟩ := canSafelyDelete_spec _ _ _ _ h
    exact ⟨hcrit, hrefs⟩
  · intro hne
    simp only [classifyBlob]
    cases hcd : canSafelyDelete blob
        (determineImportance ext contentRead blob
          (determineCategory ext contentRead blob) referencedBy nowMs)
        referencedBy nowMs with
    | false => rfl
    | true =>
      obtain ⟨-, -, hrefs, -⟩ := canSafelyDelete_spec _ _ _ _ hcd
      exact absurd hrefs hne

/-- C2 witness: the invariant instantiated at a deletable expired blob and
the veto instantiated at a referenced blob. -/
theorem classification_deletable_invariant_witness :
    ((classifyBlob cExt (some []) [] 0 cExpiredBlob).importance ≠ .CRITICAL ∧
      (classifyBlob cExt (some []) [] 0 cExpiredBlob).referencedBy = []) ∧
    (classifyBlob cExt (some []) ["other-blob"] 0 cExpiredBlob).canDelete = false :=
  ⟨(classification_deletable_invariant cExt (some []) [] 0 cExpiredBlob).1 (by decide),
   (classification_deletable_invariant cExt (some []) ["other-blob"] 0 cExpiredBlob).2
     (by decide)⟩

/-! ## C10 — the only delete reasons -/

/-- C10: whenever a classification carries a `deleteReason`, that reason is
`"Blob has expired"` or `"Low importance and older than 1 year"`; the other
two reason strings of `getDeleteReason` are unreachable because
`DISPOSABLE` importance only arises for expired blobs and expiry takes
precedence. -/
theorem delete_reason_values (ext : ExtEnv) (contentRead : Option (List Nat))
    (referencedBy : List String) (nowMs : Nat) (blob : BlobInfo) (r : String)
    (h : (classifyBlob ext contentRead referencedBy nowMs blob).deleteReason = some r) :
    r = "Blob has expired" ∨ r = "Low importance and older than 1 year" := by
  simp only [classifyBlob] at h
  cases hcd : canSafelyDelete blob
      (determineImportance ext contentRead blob
        (determineCategory ext contentRead blob) referencedBy nowMs)
      referencedBy nowMs with
  | false => rw [hcd] at h; simp at h
  | true =>
    rw [hcd] at h
    simp only [if_true, Option.some.injEq] at h
    obtain ⟨-, -, -, hcase⟩ := canSafelyDelete_spec _ _ _ _ hcd
    cases hexp : blob.isExpired with
    | true =>
      left
      rw [← h]
      unfold getDeleteReason
      simp [hexp]
    | false =>
      rcases hcase with hx | hdisp | ⟨hlow, hage⟩
      · rw [hexp] at hx; exact absurd hx (by simp)
      · exact absurd hdisp (determineImportance_ne_disposable _ _ _ _ _ _ hexp)
      · right
        rw [← h]
        unfold getDeleteReason
        simp [hexp, hlow, hage]

/-- C10 witness: the expired fixture produces the reason
`"Blob has expired"`. -/
theorem delete_reason_values_witness :
    (classifyBlob cExt (some []) [] 0 cExpiredBlob).deleteReason
        = some "Blob has expired" ∧
      ("Blob has expired" = "Blob has expired" ∨
        "Blob has expired" = "Low importance and older than 1 year") :=
  ⟨by decide,
   delete_reason_values cExt (some []) [] 0 cExpiredBlob "Blob has expired" (by decide)⟩

/-! ## C9 — deletion plan soundness -/

/-- A classification passing `shouldDelete` is deletable. -/
theorem shouldDelete_canDelete (c : BlobClassification) (options : DeletionOptions)
    (h : shouldDelete c options = true) : c.canDelete = true := by
  unfold shouldDelete at h
  split_ifs at h with h1
  simpa using h1

/-- C9: the plan's targets are (the identifiers of) a sublist of the input
classifications all of which have `canDelete = true`, and
`totalSizeReduction` is exactly the sum of `sizeBytes` over those targets. -/
theorem deletion_plan_sound (classifications : List BlobClassification)
    (options : DeletionOptions) :
    ∃ targets : List BlobClassification,
      targets.Sublist classifications
      ∧ (∀ c ∈ targets, c.canDelete = true)
      ∧ (createDeletionPlan classifications options).blobsToDelete
          = targets.map (fun b => b.blobId)
      ∧ (createDeletionPlan classifications options).totalSizeReduction
          = (targets.map (fun b => b.sizeBytes)).sum := by
  refine ⟨classifications.filter (fun c => shouldDelete c options), ?_, ?_, rfl, ?_⟩
  · exact List.filter_sublist classifications
  · intro c hc
    exact shouldDelete_canDelete c options (List.mem_filter.mp hc).2
  · show (classifications.filter (fun c => shouldDelete c options)).foldl
        (fun sum b => sum + b.sizeBytes) 0 = _
    rw [foldl_add_map_sum]
    exact Nat.zero_add _

/-! ## C8 — site descriptor invariant -/

/-- Every descriptor produced by `analyzeZipSite` computes
`isFileDirectory` from its own `hasIndexHtml` and resource count. -/
theorem analyzeZipSite_isFileDirectory (parseZip : ParseZip) (content : List Nat)
    (blobId : String) (s : WalrusSite)
    (h : analyzeZipSite parseZip content blobId = some s) :
    s.isFileDirectory = (!s.hasIndexHtml && decide (s.resources.length > 0)) := by
  unfold analyzeZipSite at h
  cases hpz : parseZip content with
  | none => rw [hpz] at h; exact absurd h (by simp)
  | some entries =>
    rw [hpz] at h
    dsimp only at h
    split_ifs at h with hc hh
    all_goals
      simp only [Option.some.injEq] at h
      subst h
      rfl

/-- C8: every site descriptor returned by `detectWalrusSite` (zip-based or
single-page) never has `isFileDirectory` and `hasIndexHtml` both true, and
has a non-empty resource list whenever `isFileDirectory` is true. -/
theorem site_descriptor_invariant (parseZip : ParseZip) (content : List Nat)
    (blobId : String) (s : WalrusSite)
    (h : (detectWalrusSite parseZip content blobId).siteInfo = some s) :
    ¬(s.isFileDirectory = true ∧ s.hasIndexHtml = true)
    ∧ (s.isFileDirectory = true → s.resources ≠ []) := by
  unfold detectWalrusSite at h
  by_cases hzb : isZipBasedSite parseZip content = true
  · rw [hzb] at h
    simp only [if_true] at h
    cases hA : analyzeZipSite parseZip content blobId with
    | none => rw [hA] at h; exact absurd h (by simp)
    | some si =>
      rw [hA] at h
      simp only [Option.some.injEq] at h
      subst h
      have hshape := analyzeZipSite_isFileDirectory parseZip content blobId si hA
      constructor
      · rintro ⟨hfd, hidx⟩
        rw [hshape, hidx] at hfd
        simp at hfd
      · intro hfd
        rw [hshape] at hfd
        have hlen : si.resources.length > 0 := by
          simp only [Bool.and_eq_true, decide_eq_true_eq] at hfd
          exact hfd.2
        exact List.ne_nil_of_length_pos hlen
  · rw [Bool.not_eq_true] at hzb
    rw [hzb] at h
    simp only [Bool.false_eq_true, if_false] at h
    by_cases hsp : isSinglePageSite content = true
    · rw [hsp] at h
      simp only [if_true, Option.some.injEq] at h
      subst h
      constructor
      · rintro ⟨hfd, -⟩
        simp [analyzeSinglePageSite] at hfd
      · intro hfd
        simp [analyzeSinglePageSite] at hfd
    · rw [Bool.not_eq_true] at hsp
      rw [hsp] at h
      simp at h

/-! ## C4 — what counts as a zip-based site -/

/-- C4 (amended): for bytes that open as an archive, the zip branch is
taken iff some entry key ends with the string `index.html` (at ANY nesting
depth, even as a suffix of a longer file name) or equals `index.html`; and
when it is taken, the bytes are reported as a site iff the archive has at
least one non-directory entry. -/
theorem zip_site_detection_iff (parseZip : ParseZip) (content : List Nat)
    (blobId : String) (entries : List ZipEntry)
    (hp : parseZip content = some entries) :
    (isZipBasedSite parseZip content
       = entries.any (fun e => strEndsWith e.path "index.html" || e.path == "index.html"))
    ∧ (isZipBasedSite parseZip content = true →
        (detectWalrusSite parseZip content blobId).isWalrusSite
          = entries.any (fun e => !e.dir)) := by
  constructor
  · unfold isZipBasedSite
    rw [hp]
  · intro hzb
    cases hnd : entries.any (fun e => !e.dir) with
    | true =>
      obtain ⟨e, he, hee⟩ := List.any_eq_true.mp hnd
      have hlen : (scanEntries blobId entries {}).resources.length > 0 := by
        rw [scanEntries_resources_length]
        have hmem : e ∈ entries.filter (fun e => !e.dir) :=
          List.mem_filter.mpr ⟨he, hee⟩
        have hpos := List.length_pos_of_mem hmem
        have h0 : (({} : ZipScan)).resources.length = 0 := rfl
        omega
      have hA : ∃ si, analyzeZipSite parseZip content blobId = some si := by
        unfold analyzeZipSite
        rw [hp]
        dsimp only
        split_ifs with hcond
        · exfalso
          simp only [Bool.and_eq_true, beq_iff_eq] at hcond
          obtain ⟨-, h0⟩ := hcond
          omega
        all_goals exact ⟨_, rfl⟩
      obtain ⟨si, hA⟩ := hA
      unfold detectWalrusSite
      rw [hzb]
      simp [hA]
    | false =>
      have hfl : entries.filter (fun e => !e.dir) = [] := by
        rw [List.filter_eq_nil_iff]
        intro e he
        have := List.any_eq_false.mp hnd e he
        simpa using this
      have hlen0 : (scanEntries blobId entries {}).resources.length = 0 := by
        rw [scanEntries_resources_length, hfl]
        rfl
      have hidx : (scanEntries blobId entries {}).hasIndexHtml = false := by
        rw [scanEntries_hasIndexHtml]
        have hnone : entries.any (fun e => !e.dir && isIndexEntryPath e.path) = false := by
          rw [List.any_eq_false]
          intro e he
          have := List.any_eq_false.mp hnd e he
          simp_all
        simp [hnone]
      have hA : analyzeZipSite parseZip content blobId = none := by
        unfold analyzeZipSite
        rw [hp]
        dsimp only
        rw [if_pos]
        simp [hidx, hlen0]
      unfold detectWalrusSite
      rw [hzb]
      simp [hA]

/-! ## C3 — archives with and without a root index page -/

/-- C3 (amended): for bytes that open as an archive, (a) a root
`index.html` file entry yields a descriptor with `hasIndexPage = true` and
`isFileDirectory = false`; (b) an archive with only non-index file entries
yields a file-directory descriptor with non-empty resources ONLY when it
still reaches the zip branch, i.e. when some entry name nonetheless ends
with the string `index.html` — otherwise the zip branch is never taken
(see the counterexample). -/
theorem archive_site_analysis (parseZip : ParseZip) (content : List Nat)
    (blobId : String) (entries : List ZipEntry)
    (hp : parseZip content = some entries) :
    ((∃ e ∈ entries, e.dir = false ∧ e.path = "index.html") →
      ∃ s, (detectWalrusSite parseZip content blobId).siteInfo = some s
        ∧ s.hasIndexHtml = true ∧ s.isFileDirectory = false)
    ∧ ((∀ e ∈ entries, e.dir = false → isIndexEntryPath e.path = false) →
       (∃ e ∈ entries, e.dir = false) →
       entries.any (fun e => strEndsWith e.path "index.html" || e.path == "index.html") = true →
       ∃ s, (detectWalrusSite parseZip content blobId).siteInfo = some s
         ∧ s.isFileDirectory = true ∧ s.resources ≠ []) := by
  constructor
  · rintro ⟨e, he, hdir, hpath⟩
    have hzb : isZipBasedSite parseZip content = true := by
      unfold isZipBasedSite
      rw [hp]
      exact List.any_eq_true.mpr ⟨e, he, by rw [hpath]; decide⟩
    have hidx : (scanEntries blobId entries {}).hasIndexHtml = true := by
      rw [scanEntries_hasIndexHtml]
      have hany : entries.any (fun e => !e.dir && isIndexEntryPath e.path) = true :=
        List.any_eq_true.mpr ⟨e, he, by rw [hdir, hpath]; decide⟩
      simp [hany]
    have hA : analyzeZipSite parseZip content blobId
        = some { objectId := "", blobId := blobId,
                 name := (scanEntries blobId entries {}).siteName,
                 domain := none, hasIndexHtml := true,
                 resources := (scanEntries blobId entries {}).resources,
                 headers := if (scanEntries blobId entries {}).headers.length > 0
                            then some ((scanEntries blobId entries {}).headers) else none,
                 isFileDirectory := false } := by
      unfold analyzeZipSite
      rw [hp]
      dsimp only
      simp [hidx]
    refine ⟨{ objectId := "", blobId := blobId,
              name := (scanEntries blobId entries {}).siteName,
              domain := none, hasIndexHtml := true,
              resources := (scanEntries blobId entries {}).resources,
              headers := if (scanEntries blobId entries {}).headers.length > 0
                         then some ((scanEntries blobId entries {}).headers) else none,
              isFileDirectory := false }, ?_, rfl, rfl⟩
    simp [detectWalrusSite, hzb, hA]
  · intro hnon hex hany
    have hzb : isZipBasedSite parseZip content = true := by
      unfold isZipBasedSite
      rw [hp]
      exact hany
    have hidx : (scanEntries blobId entries {}).hasIndexHtml = false := by
      rw [scanEntries_hasIndexHtml]
      have hnone : entries.any (fun e => !e.dir && isIndexEntryPath e.path) = false := by
        rw [List.any_eq_false]
        intro e he
        cases hd : e.dir with
        | true => simp [hd]
        | false => simp [hd, hnon e he hd]
      simp [hnone]
    obtain ⟨e, he, hdir⟩ := hex
    have hlen : (scanEntries blobId entries {}).resources.length > 0 := by
      rw [scanEntries_resources_length]
      have hmem : e ∈ entries.filter (fun e => !e.dir) :=
        List.mem_filter.mpr ⟨he, by rw [hdir]; rfl⟩
      have hpos := List.length_pos_of_mem hmem
      have h0 : (({} : ZipScan)).resources.length = 0 := rfl
      omega
    have hA : analyzeZipSite parseZip content blobId
        = some { objectId := "", blobId := blobId,
                 name := (scanEntries blobId entries {}).siteName,
                 domain := none, hasIndexHtml := false,
                 resources := (scanEntries blobId entries {}).resources,
                 headers := if (scanEntries blobId entries {}).headers.length > 0
                            then some ((scanEntries blobId entries {}).headers) else none,
                 isFileDirectory := true } := by
      unfold analyzeZipSite
      rw [hp]
      dsimp only
      have hne : ((scanEntries blobId entries {}).resources.length == 0) = false := by
        simp only [beq_eq_false_iff_ne, ne_eq]
        omega
      simp [hidx, hne, hlen]
    refine ⟨{ objectId := "", blobId := blobId,
              name := (scanEntries blobId entries {}).siteName,
              domain := none, hasIndexHtml := false,
              resources := (scanEntries blobId entries {}).resources,
              headers := if (scanEntries blobId entries {}).headers.length > 0
                         then some ((scanEntries blobId entries {}).headers) else none,
              isFileDirectory := true }, ?_, rfl, ?_⟩
    · simp [detectWalrusSite, hzb, hA]
    · exact List.ne_nil_of_length_pos hlen

/-! ## Site fixtures, witnesses and counterexamples -/

/-- An archive entry that is a plain stylesheet (no index page at all). -/
def c3Entry : ZipEntry := { path := "style.css", dir := false, text := "", uncompressedSize := some 10 }

/-- Bytes of the index-less archive. -/
def c3Bytes : List Nat := [0x50, 0x4B, 3, 4]

/-- Archive loader recognising exactly `c3Bytes` as the index-less archive. -/
def c3Parse : ParseZip := fun c => if c == c3Bytes then some [c3Entry] else none

/-- C3 counterexample: `c3Bytes` opens as an archive containing only the
non-index file entry `style.css`, yet `detectWalrusSite` produces NO
descriptor at all (no `isFileDirectory = true` result): without an entry
name ending in `index.html` the zip branch is never taken. -/
theorem indexless_archive_not_file_directory :
    c3Parse c3Bytes = some [c3Entry]
    ∧ (detectWalrusSite c3Parse c3Bytes "blob-3").isWalrusSite = false
    ∧ (detectWalrusSite c3Parse c3Bytes "blob-3").siteInfo = none := by
  exact ⟨by decide, by decide, by decide⟩

/-- A root `index.html` archive entry. -/
def c3aEntry : ZipEntry := { path := "index.html", dir := false, text := "<title>Root</title>", uncompressedSize := some 5 }

/-- Bytes of the root-index archive. -/
def c3aBytes : List Nat := [0x50, 0x4B, 7, 8]

/-- Archive loader recognising exactly `c3aBytes`. -/
def c3aParse : ParseZip := fun c => if c == c3aBytes then some [c3aEntry] else none

/-- A file whose name merely ends in `index.html` without being one. -/
def c3bEntry : ZipEntry := { path := "myindex.html", dir := false, text := "", uncompressedSize := some 6 }

/-- Bytes of the suffix-quirk archive. -/
def c3bBytes : List Nat := [0x50, 0x4B, 9, 10]

/-- Archive loader recognising exactly `c3bBytes`. -/
def c3bParse : ParseZip := fun c => if c == c3bBytes then some [c3bEntry] else none

/-- C3 witness: part (a) at a root-index archive, part (b) at an archive
whose single file merely ends in `index.html`. -/
theorem archive_site_analysis_witness :
    (∃ s, (detectWalrusSite c3aParse c3aBytes "blob-3a").siteInfo = some s
      ∧ s.hasIndexHtml = true ∧ s.isFileDirectory = false)
    ∧ (∃ s, (detectWalrusSite c3bParse c3bBytes "blob-3b").siteInfo = some s
      ∧ s.isFileDirectory = true ∧ s.resources ≠ []) :=
  ⟨(archive_site_analysis c3aParse c3aBytes "blob-3a" [c3aEntry] (by decide)).1
      ⟨c3aEntry, by decide, by decide, by decide⟩,
   (archive_site_analysis c3bParse c3bBytes "blob-3b" [c3bEntry] (by decide)).2
      (by decide) ⟨c3bEntry, by decide, by decide⟩ (by decide)⟩

/-- An archive entry whose index page sits two directory levels deep. -/
def c4Entry : ZipEntry := { path := "assets/pages/index.html", dir := false, text := "<title>Nested</title>", uncompressedSize := some 20 }

/-- Bytes of the nested-index archive. -/
def c4Bytes : List Nat := [0x50, 0x4B, 5, 6]

/-- Archive loader recognising exactly `c4Bytes`. -/
def c4Parse : ParseZip := fun c => if c == c4Bytes then some [c4Entry] else none

/-- C4 counterexample: an archive whose only index page is nested two
directory segments deep IS treated as a zip-based site (with
`hasIndexHtml = true`), refuting "at the bundle root or inside exactly one
leading directory segment". -/
theorem nested_index_treated_as_site :
    c4Parse c4Bytes = some [c4Entry]
    ∧ isZipBasedSite c4Parse c4Bytes = true
    ∧ (detectWalrusSite c4Parse c4Bytes "blob-4").isWalrusSite = true
    ∧ Option.map WalrusSite.hasIndexHtml
        (detectWalrusSite c4Parse c4Bytes "blob-4").siteInfo = some true := by
  exact ⟨by decide, by decide, by decide, by decide⟩

/-- C4 witness: the characterisation instantiated at the nested-index
archive. -/
theorem zip_site_detection_iff_witness :
    (isZipBasedSite c4Parse c4Bytes
       = [c4Entry].any (fun e => strEndsWith e.path "index.html" || e.path == "index.html"))
    ∧ ((detectWalrusSite c4Parse c4Bytes "blob-4").isWalrusSite
       = [c4Entry].any (fun e => !e.dir)) :=
  ⟨(zip_site_detection_iff c4Parse c4Bytes "blob-4" [c4Entry] (by decide)).1,
   (zip_site_detection_iff c4Parse c4Bytes "blob-4" [c4Entry] (by decide)).2 (by decide)⟩

/-- Bytes of a bare single-page HTML document. -/
def cHtmlBytes : List Nat := strBytes "<html><body>hi</body></html>"

/-- Archive loader under which nothing opens as an archive. -/
def c8Parse : ParseZip := fun _ => none

/-- C8 witness: the invariant instantiated at the single-page descriptor
produced for `cHtmlBytes`. -/
theorem site_descriptor_invariant_witness :
    ¬((analyzeSinglePageSite cHtmlBytes "blob-8").isFileDirectory = true
        ∧ (analyzeSinglePageSite cHtmlBytes "blob-8").hasIndexHtml = true)
    ∧ ((analyzeSinglePageSite cHtmlBytes "blob-8").isFileDirectory = true
        → (analyzeSinglePageSite cHtmlBytes "blob-8").resources ≠ []) :=
  site_descriptor_invariant c8Parse cHtmlBytes "blob-8"
    (analyzeSinglePageSite cHtmlBytes "blob-8") (by decide)
